import Mathlib

/-
Verification of the formio component validation and dynamic-option core of
the open-forms backend.

The definitions below are a shallow embedding of:
  - src/openforms/formio/components/vanilla.py (per-component serializer
    field builders, TimeBetweenValidator, validate_required_checkbox),
  - the Django REST Framework field validation semantics those builders
    configure (CharField, EmailField, TimeField, BooleanField, ChoiceField,
    MultipleChoiceField, ListField, nested Serializer), which is the
    external library the repository delegates value validation to,
  - the tree walker build_serializer and the dynamic option resolver
    add_options_to_config, which are modelled from the specification since
    their modules are not part of the provided sources (only their tests
    and callers are).

External, opaque computations (regular-expression matching, e-mail syntax
checking, registered plugin validators) are abstracted into an environment
record ExtEnv, mirroring the fact that the repository treats them as opaque
extension points looked up by identifier.
-/

/-- JSON-shaped values as they appear in submitted data payloads. -/
inductive JValue where
  | null
  | bool (b : Bool)
  | str (s : String)
  | list (xs : List JValue)
  | obj (fields : List (String × JValue))

/-- One choice option, a label and value pair as stored under the values key
of a choice component. -/
structure OptionLV where
  label : String
  value : String
deriving DecidableEq

/-- Origin of the options of a choice component. -/
inductive DataSrc where
  | manual
  | variableSrc
deriving DecidableEq

/-- Validation rule set of a component, mirroring the validate key of the
component dictionary.  Every rule is optional, matching the dict.get calls
in the source.  Patterns and plugin identifiers are kept as the raw strings
the component stores. -/
structure Validate where
  required : Option Bool := none
  maxLength : Option Nat := none
  pattern : Option String := none
  plugins : List String := []
  minTime : Option String := none
  maxTime : Option String := none

/-- Whitespace characters stripped by str.strip in Python, which is the
trim_whitespace behaviour of the CharField the builders configure. -/
def isSpaceC (c : Char) : Bool :=
  c = ' ' || c = '\t' || c = '\n' || c = '\r'

/-- Drops leading whitespace characters from a character list. -/
def dropLeadingSpaces : List Char → List Char
  | [] => []
  | c :: cs => if isSpaceC c then dropLeadingSpaces cs else c :: cs

/-- Strips whitespace from both ends of a string, as str.strip does. -/
def strTrim (s : String) : String :=
  ⟨(dropLeadingSpaces (dropLeadingSpaces s.data.reverse).reverse)⟩

/-- Numeric value of a decimal digit character, if it is one. -/
def digitVal (c : Char) : Option Nat :=
  if c.isDigit then some (c.toNat - 48) else none

/-- Parses a non-empty all-digit character list into a natural number. -/
def natOfChars : List Char → Option Nat
  | [] => none
  | [c] => digitVal c
  | c :: cs =>
    match digitVal c, natOfChars cs with
    | some d, some rest => some (d * 10 ^ cs.length + rest)
    | _, _ => none

/-- Splits a character list on the colon character. -/
def splitOnColon : List Char → List (List Char)
  | [] => [[]]
  | c :: cs =>
    let r := splitOnColon cs
    if c = ':' then [] :: r
    else
      match r with
      | h :: t => (c :: h) :: t
      | [] => [[c]]

/-- Time of day with second precision, the payload of a Python datetime.time
as produced by time.fromisoformat for the HH:MM and HH:MM:SS forms used in
formio minTime and maxTime settings. -/
structure TimeOfDay where
  hour : Nat
  minute : Nat
  second : Nat
deriving DecidableEq

/-- Total seconds since midnight; Python compares time objects
lexicographically on the hour, minute and second fields, which coincides
with comparison of this value. -/
def TimeOfDay.toSec (t : TimeOfDay) : Nat :=
  t.hour * 3600 + t.minute * 60 + t.second

/-- Parses an ISO time string of the form HH:MM or HH:MM:SS, as
time.fromisoformat accepts for the configuration strings stored in
component validate rules.  Out-of-range fields are rejected, as in Python. -/
def timeFromIso (s : String) : Option TimeOfDay :=
  match (splitOnColon s.data).map natOfChars with
  | [some h, some m] =>
    if h < 24 && m < 60 then some ⟨h, m, 0⟩ else none
  | [some h, some m, some sec] =>
    if h < 24 && m < 60 && sec < 60 then some ⟨h, m, sec⟩ else none
  | _ => none

/-- HTML entity escaping of a single character, as django.utils.html.escape
performs on resolved option labels and values: the five markup-significant
characters become entities, everything else is kept. -/
def escapeChar (c : Char) : List Char :=
  if c = '&' then "&amp;".data
  else if c = '<' then "&lt;".data
  else if c = '>' then "&gt;".data
  else if c = Char.ofNat 34 then "&quot;".data
  else if c = Char.ofNat 39 then "&#x27;".data
  else [c]

/-- HTML entity escaping of a character list. -/
def escapeChars : List Char → List Char
  | [] => []
  | c :: cs => escapeChar c ++ escapeChars cs

/-- HTML entity escaping of a string. -/
def escapeHtml (s : String) : String :=
  ⟨escapeChars s.data⟩

/-- A string is markup free when it contains none of the characters that
open a tag or close an attribute in HTML: the angle brackets and the double
quote. -/
def markupFree (s : String) : Prop :=
  ∀ ch ∈ s.data, ch ≠ '<' ∧ ch ≠ '>' ∧ ch ≠ Char.ofNat 34

/-- Environment of external, opaque computations the validators delegate
to: plugin validators registered by identifier (returning an error code on
failure), the regular-expression engine applied to the pattern stored on
the component, and e-mail syntax validation.  The repository treats all of
these as extension points or library facilities. -/
structure ExtEnv where
  plugin : String → JValue → Option String
  regexMatch : String → String → Bool
  emailValid : String → Bool

/-- The trivial environment: no plugin ever fails, no pattern matches, no
string is a valid e-mail address. -/
def extDefault : ExtEnv :=
  ⟨fun _ _ => none, fun _ _ => false, fun _ => true⟩

/-- Value-level validators attached to a string-valued field, in the order
the builders append them: the pattern validator, then plugin validators. -/
inductive StrValidator where
  | regexV (pat : String)
  | pluginV (id : String)

/-- Value-level validators attached to a time field, as assembled by the
time component builder from minTime and maxTime. -/
inductive TimeValidator where
  | minV (t : TimeOfDay)
  | maxV (t : TimeOfDay)
  | betweenV (tmin tmax : TimeOfDay)

/-- Configuration of a CharField or EmailField as the builders construct
it.  The maxLength validator is appended by the field constructor after the
explicitly passed validators, and the e-mail validator after that. -/
structure CharOpts where
  required : Bool
  allowBlank : Bool
  allowNull : Bool
  maxLength : Option Nat := none
  validators : List StrValidator := []
  isEmail : Bool := false

/-- Compiled serializer fields: the shapes of DRF fields that the component
builders in vanilla.py produce.  The serF constructor is the nested
composite serializer used as the row blueprint of a repeating group and as
the top-level composite validator. -/
inductive SField where
  | charF (o : CharOpts)
  | timeF (required : Bool) (allowNull : Bool) (validators : List TimeValidator)
  | boolF (requiredChecked : Bool) (plugins : List String)
  | choiceF (choices : List String) (required : Bool) (allowBlank : Bool) (allowNull : Bool)
  | multiChoiceF (choices : List String) (required : Bool) (allowBlank : Bool) (allowEmpty : Bool)
  | listF (child : SField) (required : Bool) (allowNull : Bool) (allowEmpty : Bool) (maxLength : Option Nat)
  | serF (fields : List (String × SField))

/-- Structured validation errors: a flat list of error codes on a leaf
field, an index-addressed map for the rows of a list field, or a
key-addressed map for the fields of a composite serializer. -/
inductive ErrorTree where
  | codes (cs : List String)
  | indexed (entries : List (Nat × ErrorTree))
  | nested (entries : List (String × ErrorTree))

/-- Outcome of validating one field: either the field was skipped (absent
and not required) or it produced a validated value. -/
inductive VResult where
  | skipped
  | val (v : JValue)

/-- True when the given except value is a success. -/
def isOkE : Except ErrorTree VResult → Bool
  | .ok _ => true
  | .error _ => false

/-- Runs the string validators of a CharField configuration in order,
collecting every produced error code, then the implicit maxLength
validator, then the implicit e-mail validator; DRF run_validators collects
the codes of all failing validators before raising. -/
def runStrValidators (ext : ExtEnv) (o : CharOpts) (s : String) : List String :=
  (o.validators.flatMap fun v =>
    match v with
    | .regexV pat => if ext.regexMatch pat s then [] else ["invalid"]
    | .pluginV id =>
      match ext.plugin id (.str s) with
      | some c => [c]
      | none => []) ++
  (match o.maxLength with
   | some m => if s.data.length > m then ["max_length"] else []
   | none => []) ++
  (if o.isEmail then (if ext.emailValid s then [] else ["invalid"]) else [])

/-- The callable body of TimeBetweenValidator from vanilla.py, returning
the codes it raises: when the minimum is before the maximum (same day) a
value below the minimum raises min_value and one above the maximum raises
max_value; otherwise the minimum lies on the day before the maximum, and
the validator raises invalid exactly when the value is strictly before the
minimum and strictly after the maximum. -/
def TimeBetweenValidator.call (tmin tmax t : TimeOfDay) : List String :=
  if tmin.toSec < tmax.toSec then
    if t.toSec < tmin.toSec then ["min_value"]
    else if t.toSec > tmax.toSec then ["max_value"]
    else []
  else
    if t.toSec < tmin.toSec ∧ t.toSec > tmax.toSec then ["invalid"] else []

/-- Runs the time validators of a time field in order, collecting error
codes.  The min and max validators fire on values outside the one-sided
bound; the between validator is TimeBetweenValidator from vanilla.py. -/
def runTimeValidators (vs : List TimeValidator) (t : TimeOfDay) : List String :=
  vs.flatMap fun v =>
    match v with
    | .minV lo => if t.toSec < lo.toSec then ["min_value"] else []
    | .maxV hi => if t.toSec > hi.toSec then ["max_value"] else []
    | .betweenV tmin tmax => TimeBetweenValidator.call tmin tmax t

/-- String spellings accepted as true by the DRF BooleanField. -/
def boolTrueStrs : List String :=
  ["t", "T", "y", "Y", "yes", "Yes", "YES", "true", "True", "TRUE", "on", "On", "ON", "1"]

/-- String spellings accepted as false by the DRF BooleanField. -/
def boolFalseStrs : List String :=
  ["f", "F", "n", "N", "no", "No", "NO", "false", "False", "FALSE", "off", "Off", "OFF", "0"]

/-- Element check of a MultipleChoiceField: each item goes through the
single ChoiceField conversion, and the first failing item aborts with its
code, as the set comprehension in to_internal_value propagates the first
raised error. -/
def multiChoiceCheck (choices : List String) (allowBlank : Bool) : List JValue → Option String
  | [] => none
  | .str s :: rest =>
    if (s = "" && allowBlank) || choices.contains s then
      multiChoiceCheck choices allowBlank rest
    else some "invalid_choice"
  | _ :: _ => some "invalid_choice"

/-- Required flag of a compiled field.  A missing input key fails with the
required code exactly when this is set; BooleanField and nested serializers
are always required because the builders never pass a required argument to
them. -/
def fieldRequired : SField → Bool
  | .charF o => o.required
  | .timeF req _ _ => req
  | .boolF _ _ => true
  | .choiceF _ req _ _ => req
  | .multiChoiceF _ req _ _ => req
  | .listF _ req _ _ _ => req
  | .serF _ => true

/-- Error codes produced by running a list of plugin validators, looked up
by identifier in the environment, on one value; every failing plugin
contributes its code. -/
def pluginCodes (ext : ExtEnv) (plugins : List String) (v : JValue) : List String :=
  plugins.flatMap fun id =>
    match ext.plugin id v with
    | some c => [c]
    | none => []

/-- Validator pipeline of a BooleanField as configured by the checkbox
builder: the required-checkbox validator (which rejects false with the
invalid code) runs first, then the plugin validators, and all produced
codes are collected. -/
def boolValidate (ext : ExtEnv) (reqChecked : Bool) (plugins : List String) (b : Bool) :
    Except ErrorTree VResult :=
  let codes :=
    (if reqChecked && !b then ["invalid"] else []) ++ pluginCodes ext plugins (.bool b)
  if codes.isEmpty then .ok (.val (.bool b)) else .error (.codes codes)

/-- Runs a child validation function over every element of a list,
collecting the errors keyed by the zero-based element index and the
validated values of the passing elements, exactly as the run_child_validation
loop of the DRF ListField does. -/
def runElems (cf : JValue → Except ErrorTree VResult) :
    List JValue → Nat → List (Nat × ErrorTree) × List JValue
  | [], _ => ([], [])
  | x :: rest, idx =>
    let r := runElems cf rest (idx + 1)
    match cf x with
    | .error e => ((idx, e) :: r.1, r.2)
    | .ok .skipped => r
    | .ok (.val v) => (r.1, v :: r.2)

mutual

/-- Validation semantics of one compiled field on one input, mirroring the
DRF run_validation pipeline: absent input is checked against the required
flag, None against allow_null, then the type-specific to_internal_value
conversion runs, then the validators.  A list field validates each element
with its child field and reports child failures keyed by element index; a
nested serializer validates each of its fields against the corresponding
key of the input object and reports failures keyed by field name. -/
def fieldSem (ext : ExtEnv) : SField → Option JValue → Except ErrorTree VResult
  | f, none =>
    if fieldRequired f then .error (.codes ["required"]) else .ok .skipped
  | .charF o, some v =>
    match v with
    | .str s =>
      if strTrim s = "" then
        if o.allowBlank then .ok (.val (.str "")) else .error (.codes ["blank"])
      else
        let codes := runStrValidators ext o (strTrim s)
        if codes.isEmpty then .ok (.val (.str (strTrim s))) else .error (.codes codes)
    | .null => if o.allowNull then .ok (.val .null) else .error (.codes ["null"])
    | _ => .error (.codes ["invalid"])
  | .timeF req anull validators, some v =>
    match v with
    | .null => if anull then .ok (.val .null) else .error (.codes ["null"])
    | .str s =>
      if s = "" then
        if req then .error (.codes ["required"]) else .ok (.val (.str ""))
      else
        match timeFromIso s with
        | none => .error (.codes ["invalid"])
        | some t =>
          let codes := runTimeValidators validators t
          if codes.isEmpty then .ok (.val (.str s)) else .error (.codes codes)
    | _ => .error (.codes ["invalid"])
  | .boolF reqChecked plugins, some v =>
    match v with
    | .null => .error (.codes ["null"])
    | .bool b => boolValidate ext reqChecked plugins b
    | .str s =>
      if boolTrueStrs.contains s then boolValidate ext reqChecked plugins true
      else if boolFalseStrs.contains s then boolValidate ext reqChecked plugins false
      else .error (.codes ["invalid"])
    | _ => .error (.codes ["invalid"])
  | .choiceF choices _ blank anull, some v =>
    match v with
    | .null => if anull then .ok (.val .null) else .error (.codes ["null"])
    | .str s =>
      if s = "" && blank then .ok (.val (.str ""))
      else if choices.contains s then .ok (.val (.str s))
      else .error (.codes ["invalid_choice"])
    | _ => .error (.codes ["invalid_choice"])
  | .multiChoiceF choices _ blank aempty, some v =>
    match v with
    | .list xs =>
      if xs.isEmpty && !aempty then .error (.codes ["empty"])
      else
        match multiChoiceCheck choices blank xs with
        | some c => .error (.codes [c])
        | none => .ok (.val (.list xs))
    | .null => .error (.codes ["null"])
    | _ => .error (.codes ["not_a_list"])
  | .listF child _ anull aempty maxLen, some v =>
    match v with
    | .null => if anull then .ok (.val .null) else .error (.codes ["null"])
    | .list xs =>
      if xs.isEmpty && !aempty then .error (.codes ["empty"])
      else
        let r := runElems (fun x => fieldSem ext child (some x)) xs 0
        if r.1.isEmpty then
          match maxLen with
          | some m =>
            if xs.length > m then .error (.codes ["max_length"]) else .ok (.val (.list r.2))
          | none => .ok (.val (.list r.2))
        else .error (.indexed r.1)
    | _ => .error (.codes ["not_a_list"])
  | .serF fields, some v =>
    match v with
    | .null => .error (.codes ["null"])
    | .obj kvs =>
      let r := fieldsSem ext fields kvs
      if r.1.isEmpty then .ok (.val (.obj r.2)) else .error (.nested r.1)
    | _ => .error (.codes ["invalid"])

/-- Validation of the field list of a composite serializer against an input
object: each field reads its key from the input (absent keys become the
missing sentinel), failures are collected keyed by field name, and the
validated values of the passing fields are collected in order. -/
def fieldsSem (ext : ExtEnv) :
    List (String × SField) → List (String × JValue) →
    List (String × ErrorTree) × List (String × JValue)
  | [], _ => ([], [])
  | (name, f) :: rest, kvs =>
    let r := fieldSem ext f (List.lookup name kvs)
    let rrest := fieldsSem ext rest kvs
    match r with
    | .error e => ((name, e) :: rrest.1, rrest.2)
    | .ok .skipped => rrest
    | .ok (.val v) => (rrest.1, (name, v) :: rrest.2)

end

/-- Error list of running a compiled composite serializer over a data
payload, which is the first half of the validation result pair. -/
def validateErrors (ext : ExtEnv) (fields : List (String × SField))
    (data : List (String × JValue)) : List (String × ErrorTree) :=
  (fieldsSem ext fields data).1

/-- Overall validity of a payload: no field produced an error. -/
def isValidData (ext : ExtEnv) (fields : List (String × SField))
    (data : List (String × JValue)) : Bool :=
  (validateErrors ext fields data).isEmpty

/-- Builder for textfield components, from TextField.build_serializer_field
in vanilla.py: a CharField with allow_blank the negation of required,
allow_null equal to multiple (the formio client sends null for untouched
fields), the optional maxLength, the optional pattern validator followed by
the plugin validators; wrapped in a ListField with default options when
multiple is set.  An empty pattern string is falsy in Python and adds no
validator; pattern normalisation and matching live in the abstract
regular-expression engine of the environment. -/
def TextField.build_serializer_field (validate : Validate) (multiple : Bool) : SField :=
  let required := validate.required.getD false
  let validators :=
    (match validate.pattern with
     | some p => if p = "" then [] else [StrValidator.regexV p]
     | none => []) ++ validate.plugins.map StrValidator.pluginV
  let base := SField.charF
    { required := required, allowBlank := !required, allowNull := multiple,
      maxLength := validate.maxLength, validators := validators }
  if multiple then SField.listF base true false true none else base

/-- Builder for email components, from Email.build_serializer_field: an
EmailField (CharField plus the e-mail validator) with the same required,
blank, null and maxLength handling as the textfield, plugin validators but
no pattern. -/
def Email.build_serializer_field (validate : Validate) (multiple : Bool) : SField :=
  let required := validate.required.getD false
  let base := SField.charF
    { required := required, allowBlank := !required, allowNull := multiple,
      maxLength := validate.maxLength,
      validators := validate.plugins.map StrValidator.pluginV, isEmail := true }
  if multiple then SField.listF base true false true none else base

/-- Builder for phoneNumber components, from PhoneNumber.build_serializer_field:
identical in structure to the textfield builder. -/
def PhoneNumber.build_serializer_field (validate : Validate) (multiple : Bool) : SField :=
  let required := validate.required.getD false
  let validators :=
    (match validate.pattern with
     | some p => if p = "" then [] else [StrValidator.regexV p]
     | none => []) ++ validate.plugins.map StrValidator.pluginV
  let base := SField.charF
    { required := required, allowBlank := !required, allowNull := multiple,
      maxLength := validate.maxLength, validators := validators }
  if multiple then SField.listF base true false true none else base

/-- Builder for textarea components, from TextArea.build_serializer_field:
a CharField with only the maxLength extra, no pattern and no plugin
validators. -/
def TextArea.build_serializer_field (validate : Validate) (multiple : Bool) : SField :=
  let required := validate.required.getD false
  let base := SField.charF
    { required := required, allowBlank := !required, allowNull := multiple,
      maxLength := validate.maxLength }
  if multiple then SField.listF base true false true none else base

/-- Builder for time components, from Time.build_serializer_field: a
FormioTimeField with allow_null the negation of required and a validator
selected by the minTime and maxTime match: a one-sided minimum or maximum
validator when only one bound is set, and TimeBetweenValidator when both
are.  time.fromisoformat raises on a malformed configuration string, which
ends serializer construction; the claims only concern well-formed strings,
for which parsing succeeds. -/
def Time.build_serializer_field (validate : Validate) (multiple : Bool) : SField :=
  let required := validate.required.getD false
  let validators : List TimeValidator :=
    match validate.minTime, validate.maxTime with
    | none, none => []
    | some smin, none =>
      match timeFromIso smin with
      | some t => [.minV t]
      | none => []
    | none, some smax =>
      match timeFromIso smax with
      | some t => [.maxV t]
      | none => []
    | some smin, some smax =>
      match timeFromIso smin, timeFromIso smax with
      | some t1, some t2 => [.betweenV t1 t2]
      | _, _ => []
  let base := SField.timeF required (!required) validators
  if multiple then SField.listF base true false true none else base

/-- Builder for checkbox components, from Checkbox.build_serializer_field:
a BooleanField whose validators are validate_required_checkbox (only when
required is set) followed by the plugin validators.  No required argument
is passed to the field itself, so an absent key always fails with the
required code. -/
def Checkbox.build_serializer_field (validate : Validate) : SField :=
  SField.boolF (validate.required.getD false) validate.plugins

/-- Builder for select components, from Select.build_serializer_field: the
choices are the value entries of the option list; with multiple a
MultipleChoiceField with allow_empty the negation of required, otherwise a
plain ChoiceField; in both cases allow_blank is the negation of required. -/
def Select.build_serializer_field (validate : Validate) (options : List OptionLV)
    (multiple : Bool) : SField :=
  let required := validate.required.getD false
  let choices := options.map OptionLV.value
  if multiple then SField.multiChoiceF choices required (!required) (!required)
  else SField.choiceF choices required (!required) false

/-- Builder for radio components, from the radio build_serializer_field in
vanilla.py: always a single ChoiceField over the value entries, with
allow_blank and allow_null both the negation of required.  The multiple
flag of the component plays no role here. -/
def RadioC.build_serializer_field (validate : Validate) (options : List OptionLV) : SField :=
  let required := validate.required.getD false
  SField.choiceF (options.map OptionLV.value) required (!required) (!required)

/-- Component tree nodes for the component types relevant to the claims.
Choice components carry their static option list; the repeating group and
the fieldset carry child component lists; content components have no
value.  The radio constructor keeps the multiple flag of the component
dictionary even though its builder ignores it. -/
inductive Component where
  | textfield (key : String) (validate : Validate) (multiple : Bool)
  | email (key : String) (validate : Validate) (multiple : Bool)
  | phoneNumber (key : String) (validate : Validate) (multiple : Bool)
  | textarea (key : String) (validate : Validate) (multiple : Bool)
  | timeC (key : String) (validate : Validate) (multiple : Bool)
  | checkbox (key : String) (validate : Validate)
  | selectC (key : String) (validate : Validate) (options : List OptionLV) (multiple : Bool)
  | radioC (key : String) (validate : Validate) (options : List OptionLV) (multiple : Bool)
  | editgrid (key : String) (validate : Validate) (components : List Component)
  | fieldset (key : String) (components : List Component)
  | content (key : String)

/-- The key of a component, its data-lookup and error-report identifier. -/
def Component.keyOf : Component → String
  | .textfield k _ _ => k
  | .email k _ _ => k
  | .phoneNumber k _ _ => k
  | .textarea k _ _ => k
  | .timeC k _ _ => k
  | .checkbox k _ => k
  | .selectC k _ _ _ => k
  | .radioC k _ _ _ => k
  | .editgrid k _ _ => k
  | .fieldset k _ => k
  | .content k => k

mutual

/-- Modelled from the spec: the tree walker build_serializer of
openforms/formio/serializers.py is not part of the provided sources (only
its tests and its call from the editgrid builder are).  Per the
specification it iterates the component sequence, splices the children of
a fieldset into the same level, skips components without a value validator
(content blocks), and gives every other component one field under its own
key, the repeating group getting its list field from the editgrid builder. -/
def build_serializer : List Component → List (String × SField)
  | [] => []
  | .fieldset _ cs :: rest => build_serializer cs ++ build_serializer rest
  | c :: rest =>
    match buildField c with
    | some f => (c.keyOf, f) :: build_serializer rest
    | none => build_serializer rest

/-- The value validator of a single component: the per-type builder from
vanilla.py, or none for components without a value (content) and for the
fieldset, whose children are spliced by the walker instead. -/
def buildField : Component → Option SField
  | .textfield _ v m => some (TextField.build_serializer_field v m)
  | .email _ v m => some (Email.build_serializer_field v m)
  | .phoneNumber _ v m => some (PhoneNumber.build_serializer_field v m)
  | .textarea _ v m => some (TextArea.build_serializer_field v m)
  | .timeC _ v m => some (Time.build_serializer_field v m)
  | .checkbox _ v => some (Checkbox.build_serializer_field v)
  | .selectC _ v opts m => some (Select.build_serializer_field v opts m)
  | .radioC _ v opts _ => some (RadioC.build_serializer_field v opts)
  | .editgrid _ v cs =>
    some (SField.listF (SField.serF (build_serializer cs)) (v.required.getD false)
      (!v.required.getD false) (!v.required.getD false) v.maxLength)
  | .fieldset _ _ => none
  | .content _ => none

end

/-- Builder for repeating-group components, from
EditGrid.build_serializer_field in vanilla.py: the child components are
compiled once into a nested composite serializer, wrapped in a ListField
with required, allow_null and allow_empty driven by the required rule of
the group itself and max_length from its maxLength rule.  The editgrid arm
of buildField unfolds to exactly this definition. -/
def EditGrid.build_serializer_field (validate : Validate) (children : List Component) : SField :=
  let required := validate.required.getD false
  SField.listF (SField.serF (build_serializer children)) required (!required) (!required)
    validate.maxLength

mutual

/-- The top-level component sequence after fieldset splicing: children of a
fieldset become siblings of the surrounding level, recursively. -/
def topLevelComps : List Component → List Component
  | [] => []
  | c :: rest => topLevelOne c ++ topLevelComps rest

/-- The top-level contribution of one component: a fieldset is replaced by
its spliced children, every other component stands for itself. -/
def topLevelOne : Component → List Component
  | .fieldset _ cs => topLevelComps cs
  | c => [c]

end

/-- The field list contributed by a flat component sequence: one field per
component with a value validator, keyed by the component key. -/
def fieldsOf (l : List Component) : List (String × SField) :=
  l.filterMap fun c => (buildField c).map fun f => (c.keyOf, f)

/-- Modelled from the spec: configuration of a choice component as seen by
the dynamic option resolver add_options_to_config of
openforms/formio/dynamic_config/dynamic_options.py, which is not part of
the provided sources (only its tests and its callers in vanilla.py are).
The items expression and the value expression are the variable references
used by the resolver tests, evaluated against the submission data
context. -/
structure ChoiceConfig where
  dataSrc : DataSrc
  values : List OptionLV
  itemsExpression : Option String := none
  valueExpression : Option String := none
deriving DecidableEq

/-- Which dynamic-option capability a component kind has: the three choice
component types delegate to the resolver, every other kind has no
mutate capability and is left untouched by the rewrite pass. -/
inductive DynKind where
  | selectboxes
  | selectD
  | radioD
  | other
deriving DecidableEq

/-- A component as seen by the dynamic rewrite pass. -/
structure DynComponent where
  key : String
  kind : DynKind
  cfg : ChoiceConfig
deriving DecidableEq

/-- Modelled from the spec: evaluation of the items expression against the
data context.  The referenced variable must hold a sequence; a missing
variable or a non-sequence value yields no items, which the resolver then
treats as the empty-sequence configuration error. -/
def getItems (cfg : ChoiceConfig) (data : List (String × JValue)) : List JValue :=
  match cfg.itemsExpression with
  | none => []
  | some varName =>
    match List.lookup varName data with
    | some (.list xs) => xs
    | _ => []

/-- Modelled from the spec: projection of one resolved item to its raw
option value.  A string scalar is its own value, a boolean is stringified
the Python way, and an object is projected through the value expression;
an object without a value expression, or a projection that does not reach
a string, is a configuration error, reported as none. -/
def projectItem (cfg : ChoiceConfig) : JValue → Option String
  | .str s => some s
  | .bool b => some (if b then "True" else "False")
  | .obj fields =>
    cfg.valueExpression.bind fun ve =>
      match List.lookup ve fields with
      | some (.str s) => some s
      | _ => none
  | _ => none

/-- Projection of every item, failing as a whole when any single item
fails to project. -/
def projectAll (cfg : ChoiceConfig) : List JValue → Option (List String)
  | [] => some []
  | x :: xs =>
    match projectItem cfg x, projectAll cfg xs with
    | some s, some rest => some (s :: rest)
    | _, _ => none

/-- Modelled from the spec: the dynamic option resolver.  A non-variable
data source returns the existing static list unchanged and logs nothing.
For a variable source the items expression is evaluated; an empty item
sequence, or any item that fails to project, is a configuration error
recovered locally by substituting the single placeholder option with empty
label and value and emitting one structured configuration-error log event.
Otherwise every projected value is HTML-escaped and becomes both the label
and the value of one option, preserving the source order.  The resolver is
a total function: no input raises or aborts the surrounding pass. -/
def resolveOptions (cfg : ChoiceConfig) (data : List (String × JValue)) :
    List OptionLV × List String :=
  if cfg.dataSrc = DataSrc.variableSrc then
    let items := getItems cfg data
    match items, projectAll cfg items with
    | [], _ => ([⟨"", ""⟩], ["form_configuration_error"])
    | _, none => ([⟨"", ""⟩], ["form_configuration_error"])
    | _, some vals => (vals.map fun s => ⟨escapeHtml s, escapeHtml s⟩, [])
  else (cfg.values, [])

/-- Modelled from the spec: the per-component step of the dynamic rewrite
pass.  Component kinds without the mutate capability are untouched; choice
kinds store the resolver output in their values slot and forward its log
events. -/
def mutateDyn (data : List (String × JValue)) (c : DynComponent) :
    DynComponent × List String :=
  match c.kind with
  | .other => (c, [])
  | _ =>
    let r := resolveOptions c.cfg data
    ({ c with cfg := { c.cfg with values := r.1 } }, r.2)

/-- Modelled from the spec: the dynamic rewrite pass over a component
sequence, applying the per-component step in order and concatenating the
emitted log events. -/
def rewriteAll (data : List (String × JValue)) :
    List DynComponent → List DynComponent × List String
  | [] => ([], [])
  | c :: rest =>
    let r := mutateDyn data c
    let rr := rewriteAll data rest
    (r.1 :: rr.1, r.2 ++ rr.2)

/-- The element field wrapped by a list field, or the field itself when it
is not a list field. -/
def listChildOf : SField → SField
  | .listF child _ _ _ _ => child
  | f => f

/-- C6: for a checkbox component with validate.required true, validating
the value false produces a validation error whose leading code is invalid
(from validate_required_checkbox), while an absent value produces the
required code, and the two codes differ. -/
theorem checkbox_false_invalid (ext : ExtEnv) (v : Validate)
    (hreq : v.required = some true) :
    (∃ rest, fieldSem ext (Checkbox.build_serializer_field v) (some (.bool false)) =
      .error (.codes ("invalid" :: rest)))
    ∧ fieldSem ext (Checkbox.build_serializer_field v) none = .error (.codes ["required"])
    ∧ "invalid" ≠ "required" := by
  refine ⟨⟨pluginCodes ext v.plugins (.bool false), ?_⟩, ?_, by decide⟩
  · simp [Checkbox.build_serializer_field, hreq, fieldSem, boolValidate]
  · simp [Checkbox.build_serializer_field, hreq, fieldSem, fieldRequired]

/-- Witness for C6 at a concrete checkbox component. -/
theorem checkbox_false_invalid_witness :
    (∃ rest, fieldSem extDefault (Checkbox.build_serializer_field { required := some true })
      (some (.bool false)) = .error (.codes ("invalid" :: rest)))
    ∧ fieldSem extDefault (Checkbox.build_serializer_field { required := some true }) none =
      .error (.codes ["required"])
    ∧ "invalid" ≠ "required" :=
  checkbox_false_invalid extDefault { required := some true } rfl

/-- C2 counterexample: on the wraparound configuration minTime 08:00 and
maxTime 04:00, the compiled time validator accepts the value 02:00, which
the claim requires to be rejected. -/
theorem time_wraparound_counterexample :
    fieldSem extDefault
      (Time.build_serializer_field { minTime := some "08:00", maxTime := some "04:00" } false)
      (some (.str "02:00")) = .ok (.val (.str "02:00")) := rfl

/-- C2 amended: when minTime is not strictly before maxTime the compiled
validator rejects a value exactly when it is strictly before minTime and
strictly after maxTime (the short window between the two); with minTime
08:00 and maxTime 04:00 the values 10:00 and 02:00 are both accepted and
06:00 is rejected with the invalid code. -/
theorem time_wraparound_code_semantics (tmin tmax t : TimeOfDay)
    (hw : ¬ tmin.toSec < tmax.toSec) :
    (TimeBetweenValidator.call tmin tmax t =
      if t.toSec < tmin.toSec ∧ t.toSec > tmax.toSec then ["invalid"] else [])
    ∧ fieldSem extDefault
        (Time.build_serializer_field { minTime := some "08:00", maxTime := some "04:00" } false)
        (some (.str "10:00")) = .ok (.val (.str "10:00"))
    ∧ fieldSem extDefault
        (Time.build_serializer_field { minTime := some "08:00", maxTime := some "04:00" } false)
        (some (.str "02:00")) = .ok (.val (.str "02:00"))
    ∧ fieldSem extDefault
        (Time.build_serializer_field { minTime := some "08:00", maxTime := some "04:00" } false)
        (some (.str "06:00")) = .error (.codes ["invalid"]) := by
  refine ⟨?_, rfl, rfl, rfl⟩
  rw [TimeBetweenValidator.call, if_neg hw]

/-- Witness for C2 amended at the concrete wraparound configuration. -/
theorem time_wraparound_code_semantics_witness :
    (TimeBetweenValidator.call ⟨8, 0, 0⟩ ⟨4, 0, 0⟩ ⟨2, 0, 0⟩ =
      if (⟨2, 0, 0⟩ : TimeOfDay).toSec < (⟨8, 0, 0⟩ : TimeOfDay).toSec ∧
        (⟨2, 0, 0⟩ : TimeOfDay).toSec > (⟨4, 0, 0⟩ : TimeOfDay).toSec then ["invalid"] else [])
    ∧ fieldSem extDefault
        (Time.build_serializer_field { minTime := some "08:00", maxTime := some "04:00" } false)
        (some (.str "10:00")) = .ok (.val (.str "10:00"))
    ∧ fieldSem extDefault
        (Time.build_serializer_field { minTime := some "08:00", maxTime := some "04:00" } false)
        (some (.str "02:00")) = .ok (.val (.str "02:00"))
    ∧ fieldSem extDefault
        (Time.build_serializer_field { minTime := some "08:00", maxTime := some "04:00" } false)
        (some (.str "06:00")) = .error (.codes ["invalid"]) :=
  time_wraparound_code_semantics ⟨8, 0, 0⟩ ⟨4, 0, 0⟩ ⟨2, 0, 0⟩ (by decide)

/-- C10: for textfield, email, textarea and phoneNumber components the
element field of a multiple build allows null (allow_null is the multiple
flag), so a list payload containing null validates for an optional
multiple component, while the corresponding non-multiple required field
rejects null with the null code. -/
theorem char_multiple_null_handling (ext : ExtEnv) (v vo : Validate)
    (hreq : v.required = some true) (hopt : vo.required = some false) :
    (fieldSem ext (TextField.build_serializer_field vo true) (some (.list [.null])) =
      .ok (.val (.list [.null])))
    ∧ fieldSem ext (TextField.build_serializer_field v false) (some .null) =
      .error (.codes ["null"])
    ∧ (fieldSem ext (Email.build_serializer_field vo true) (some (.list [.null])) =
      .ok (.val (.list [.null])))
    ∧ fieldSem ext (Email.build_serializer_field v false) (some .null) =
      .error (.codes ["null"])
    ∧ (fieldSem ext (TextArea.build_serializer_field vo true) (some (.list [.null])) =
      .ok (.val (.list [.null])))
    ∧ fieldSem ext (TextArea.build_serializer_field v false) (some .null) =
      .error (.codes ["null"])
    ∧ (fieldSem ext (PhoneNumber.build_serializer_field vo true) (some (.list [.null])) =
      .ok (.val (.list [.null])))
    ∧ fieldSem ext (PhoneNumber.build_serializer_field v false) (some .null) =
      .error (.codes ["null"]) := by
  refine ⟨?_, ?_, ?_, ?_, ?_, ?_, ?_, ?_⟩ <;>
    simp [TextField.build_serializer_field, Email.build_serializer_field,
      TextArea.build_serializer_field, PhoneNumber.build_serializer_field,
      fieldSem, runElems]

/-- Witness for C10 at concrete required and optional rule sets. -/
theorem char_multiple_null_handling_witness :
    (fieldSem extDefault (TextField.build_serializer_field { required := some false } true)
      (some (.list [.null])) = .ok (.val (.list [.null])))
    ∧ fieldSem extDefault (TextField.build_serializer_field { required := some true } false)
      (some .null) = .error (.codes ["null"])
    ∧ (fieldSem extDefault (Email.build_serializer_field { required := some false } true)
      (some (.list [.null])) = .ok (.val (.list [.null])))
    ∧ fieldSem extDefault (Email.build_serializer_field { required := some true } false)
      (some .null) = .error (.codes ["null"])
    ∧ (fieldSem extDefault (TextArea.build_serializer_field { required := some false } true)
      (some (.list [.null])) = .ok (.val (.list [.null])))
    ∧ fieldSem extDefault (TextArea.build_serializer_field { required := some true } false)
      (some .null) = .error (.codes ["null"])
    ∧ (fieldSem extDefault (PhoneNumber.build_serializer_field { required := some false } true)
      (some (.list [.null])) = .ok (.val (.list [.null])))
    ∧ fieldSem extDefault (PhoneNumber.build_serializer_field { required := some true } false)
      (some .null) = .error (.codes ["null"]) :=
  char_multiple_null_handling extDefault { required := some true } { required := some false }
    rfl rfl

/-- The error list of runElems is empty exactly when every element passes
the child validation. -/
theorem runElems_errors_empty (cf : JValue → Except ErrorTree VResult)
    (xs : List JValue) (idx : Nat) :
    (runElems cf xs idx).1.isEmpty = xs.all fun x => isOkE (cf x) := by
  induction xs generalizing idx with
  | nil => simp [runElems]
  | cons x rest ih =>
    simp only [runElems, List.all_cons]
    cases h : cf x with
    | error e => simp [h, isOkE]
    | ok r => cases r <;> simp [h, isOkE, ih]

/-- A ListField with all options left at their defaults (required, no
allow_null, allow_empty, no max_length), which is what every multiple
wrapper in vanilla.py constructs, accepts the empty list outright and
otherwise succeeds exactly when every element passes the child field. -/
theorem listF_default_elementwise (ext : ExtEnv) (child : SField) (xs : List JValue) :
    (fieldSem ext (.listF child true false true none) (some (.list [])) =
      .ok (.val (.list [])))
    ∧ isOkE (fieldSem ext (.listF child true false true none) (some (.list xs))) =
        xs.all fun x => isOkE (fieldSem ext child (some x)) := by
  constructor
  · rfl
  · have h := runElems_errors_empty (fun x => fieldSem ext child (some x)) xs 0
    rw [← h]
    simp only [fieldSem, Bool.not_true, Bool.and_false]
    cases hh : (runElems (fun x => fieldSem ext child (some x)) xs 0).1.isEmpty <;>
      simp [hh, isOkE]

/-- C3 counterexample: the composite validator compiled for a required
textfield with multiple set accepts a payload carrying the empty list,
although the claim requires the empty list to fail when required is
true. -/
theorem multiple_empty_list_counterexample :
    isValidData extDefault
      (build_serializer [Component.textfield "text" { required := some true } true])
      [("text", .list [])] = true := rfl

/-- C3 amended: for a multiple component of the CharField family the
compiled list validator applies the per-value checks to each element of
the submitted list, but the empty list always passes the list level
regardless of validate.required, because the ListField wrapper keeps its
default allow_empty; only the repeating-group list field ties allow_empty
to its own required rule, so only there the empty list passes exactly when
required is false. -/
theorem multiple_elementwise_semantics (ext : ExtEnv) (v : Validate)
    (xs : List JValue) (cs : List Component) :
    (fieldSem ext (TextField.build_serializer_field v true) (some (.list [])) =
      .ok (.val (.list [])))
    ∧ (isOkE (fieldSem ext (TextField.build_serializer_field v true) (some (.list xs))) =
        xs.all fun x =>
          isOkE (fieldSem ext (listChildOf (TextField.build_serializer_field v true)) (some x)))
    ∧ (fieldSem ext (Email.build_serializer_field v true) (some (.list [])) =
      .ok (.val (.list [])))
    ∧ (isOkE (fieldSem ext (Email.build_serializer_field v true) (some (.list xs))) =
        xs.all fun x =>
          isOkE (fieldSem ext (listChildOf (Email.build_serializer_field v true)) (some x)))
    ∧ (fieldSem ext (TextArea.build_serializer_field v true) (some (.list [])) =
      .ok (.val (.list [])))
    ∧ (isOkE (fieldSem ext (TextArea.build_serializer_field v true) (some (.list xs))) =
        xs.all fun x =>
          isOkE (fieldSem ext (listChildOf (TextArea.build_serializer_field v true)) (some x)))
    ∧ (fieldSem ext (PhoneNumber.build_serializer_field v true) (some (.list [])) =
      .ok (.val (.list [])))
    ∧ (isOkE (fieldSem ext (PhoneNumber.build_serializer_field v true) (some (.list xs))) =
        xs.all fun x =>
          isOkE (fieldSem ext (listChildOf (PhoneNumber.build_serializer_field v true)) (some x)))
    ∧ (fieldSem ext (EditGrid.build_serializer_field v cs) (some (.list [])) =
        if v.required.getD false then .error (.codes ["empty"]) else .ok (.val (.list []))) := by
  refine ⟨(listF_default_elementwise ext _ xs).1, (listF_default_elementwise ext _ xs).2,
    (listF_default_elementwise ext _ xs).1, (listF_default_elementwise ext _ xs).2,
    (listF_default_elementwise ext _ xs).1, (listF_default_elementwise ext _ xs).2,
    (listF_default_elementwise ext _ xs).1, (listF_default_elementwise ext _ xs).2, ?_⟩
  unfold EditGrid.build_serializer_field
  cases hreq : v.required.getD false <;>
    cases hml : v.maxLength <;>
      simp [fieldSem, runElems, hreq, hml]

/-- C4 counterexample: a required radio component with choices a and b
rejects the blank value at the serializer level, although the claim says
blank is always accepted even when required. -/
theorem choice_blank_required_counterexample :
    fieldSem extDefault
      (RadioC.build_serializer_field { required := some true } [⟨"A", "a"⟩, ⟨"B", "b"⟩])
      (some (.str "")) = .error (.codes ["invalid_choice"]) := rfl

/-- C4 amended: multiple-choice semantics apply only to select: the radio
builder ignores the multiple flag entirely while the select builder
switches to a list-valued MultipleChoiceField (a scalar is then rejected
as not a list).  A blank value is accepted at the serializer level exactly
when the component is not required, provided the empty string is not
itself a configured option value; when required, blank is rejected. -/
theorem choice_blank_and_select_multiple (ext : ExtEnv) (v : Validate)
    (opts : List OptionLV) (k : String) (m m2 : Bool)
    (hblank : (opts.map OptionLV.value).contains "" = false) :
    (buildField (Component.radioC k v opts m) = buildField (Component.radioC k v opts m2))
    ∧ (fieldSem ext (Select.build_serializer_field v opts true) (some (.str "")) =
        .error (.codes ["not_a_list"]))
    ∧ (fieldSem ext (RadioC.build_serializer_field v opts) (some (.str "")) =
        if v.required.getD false then .error (.codes ["invalid_choice"])
        else .ok (.val (.str "")))
    ∧ (fieldSem ext (Select.build_serializer_field v opts false) (some (.str "")) =
        if v.required.getD false then .error (.codes ["invalid_choice"])
        else .ok (.val (.str "")))
    ∧ (fieldSem ext (Select.build_serializer_field v opts true) (some (.list [.str ""])) =
        if v.required.getD false then .error (.codes ["invalid_choice"])
        else .ok (.val (.list [.str ""]))) := by
  simp only [List.contains_eq_any_beq, List.any_eq_false, beq_iff_eq, List.mem_map,
    forall_exists_index, and_imp] at hblank
  have hb : ∀ x ∈ opts, ¬x.value = "" := fun x hx hval =>
    hblank x.value x hx rfl hval.symm
  have hnex : ¬∃ a ∈ opts, a.value = "" := by
    intro hex
    obtain ⟨a, ha, hav⟩ := hex
    exact hb a ha hav
  refine ⟨rfl, ?_, ?_, ?_, ?_⟩
  · simp [Select.build_serializer_field, fieldSem]
  · cases hreq : v.required.getD false <;>
      simp [RadioC.build_serializer_field, fieldSem, hreq, hb] <;> exact hb
  · cases hreq : v.required.getD false <;>
      simp [Select.build_serializer_field, fieldSem, hreq, hb] <;> exact hb
  · cases hreq : v.required.getD false <;>
      simp [Select.build_serializer_field, fieldSem, hreq, hb, hnex, multiChoiceCheck]

/-- Witness for C4 amended at a concrete optional choice component. -/
theorem choice_blank_and_select_multiple_witness :
    (buildField (Component.radioC "radioKey" { required := some false }
        [⟨"A", "a"⟩, ⟨"B", "b"⟩] true) =
      buildField (Component.radioC "radioKey" { required := some false }
        [⟨"A", "a"⟩, ⟨"B", "b"⟩] false))
    ∧ (fieldSem extDefault
        (Select.build_serializer_field { required := some false } [⟨"A", "a"⟩, ⟨"B", "b"⟩] true)
        (some (.str "")) = .error (.codes ["not_a_list"]))
    ∧ (fieldSem extDefault
        (RadioC.build_serializer_field { required := some false } [⟨"A", "a"⟩, ⟨"B", "b"⟩])
        (some (.str "")) =
        if ({ required := some false : Validate }).required.getD false then
          .error (.codes ["invalid_choice"])
        else .ok (.val (.str "")))
    ∧ (fieldSem extDefault
        (Select.build_serializer_field { required := some false } [⟨"A", "a"⟩, ⟨"B", "b"⟩] false)
        (some (.str "")) =
        if ({ required := some false : Validate }).required.getD false then
          .error (.codes ["invalid_choice"])
        else .ok (.val (.str "")))
    ∧ (fieldSem extDefault
        (Select.build_serializer_field { required := some false } [⟨"A", "a"⟩, ⟨"B", "b"⟩] true)
        (some (.list [.str ""])) =
        if ({ required := some false : Validate }).required.getD false then
          .error (.codes ["invalid_choice"])
        else .ok (.val (.list [.str ""]))) :=
  choice_blank_and_select_multiple extDefault { required := some false }
    [⟨"A", "a"⟩, ⟨"B", "b"⟩] "radioKey" true false rfl

/-- C8: the dynamic rewrite pass leaves every component whose data source
is manual unchanged at its position, whatever the data context holds, in
particular when it contains a variable named like the component key. -/
theorem manual_options_never_mutated (data : List (String × JValue))
    (comps : List DynComponent) (i : Nat) (c : DynComponent)
    (hc : comps[i]? = some c) (hm : c.cfg.dataSrc = .manual) :
    (rewriteAll data comps).1[i]? = some c := by
  induction comps generalizing i with
  | nil => simp at hc
  | cons hd rest ih =>
    cases i with
    | zero =>
      rw [List.getElem?_cons_zero] at hc
      have heq : hd = c := by injection hc
      subst heq
      simp only [rewriteAll, List.getElem?_cons_zero, Option.some_inj]
      unfold mutateDyn
      cases hk : hd.kind <;> simp [hk, resolveOptions, hm] <;> rw [← hk, ← hm]
    | succ n =>
      rw [List.getElem?_cons_succ] at hc
      simp only [rewriteAll, List.getElem?_cons_succ]
      exact ih n hc

/-- Witness for C8: a manual selectboxes component survives the rewrite
pass unchanged even though the data context binds its key. -/
theorem manual_options_never_mutated_witness :
    (rewriteAll [("selectBoxes", JValue.list [JValue.str "x"])]
      [⟨"selectBoxes", DynKind.selectboxes,
        ⟨DataSrc.manual, [⟨"A", "a"⟩, ⟨"B", "b"⟩], none, none⟩⟩]).1[0]? =
      some ⟨"selectBoxes", DynKind.selectboxes,
        ⟨DataSrc.manual, [⟨"A", "a"⟩, ⟨"B", "b"⟩], none, none⟩⟩ :=
  manual_options_never_mutated [("selectBoxes", JValue.list [JValue.str "x"])]
    [⟨"selectBoxes", DynKind.selectboxes,
      ⟨DataSrc.manual, [⟨"A", "a"⟩, ⟨"B", "b"⟩], none, none⟩⟩] 0
    ⟨"selectBoxes", DynKind.selectboxes,
      ⟨DataSrc.manual, [⟨"A", "a"⟩, ⟨"B", "b"⟩], none, none⟩⟩ rfl rfl

/-- An object item in a source without a value expression makes the whole
projection fail, which the resolver treats as a configuration error. -/
theorem projectAll_none_of_obj (cfg : ChoiceConfig) (hve : cfg.valueExpression = none)
    (items : List JValue) (flds : List (String × JValue))
    (hmem : JValue.obj flds ∈ items) : projectAll cfg items = none := by
  induction items with
  | nil => simp at hmem
  | cons x rest ih =>
    rcases List.mem_cons.mp hmem with heq | htail
    · rw [← heq]
      simp [projectAll, projectItem, hve]
    · have hr := ih htail
      cases hpi : projectItem cfg x <;> simp [projectAll, hpi, hr]

/-- C7: for a variable-source choice component whose resolved item
sequence is empty, or whose items include an object while the required
value expression is missing, the resolver yields exactly the single
placeholder option with empty label and value together with one
configuration-error log event, and the rewrite step stores that
placeholder in the component; resolver and rewrite step are total
functions, so the surrounding rewrite pass is never aborted. -/
theorem resolver_placeholder_on_config_error (cfg : ChoiceConfig)
    (data : List (String × JValue)) (k : String) (kind : DynKind)
    (hk : kind ≠ DynKind.other) (hv : cfg.dataSrc = .variableSrc)
    (herr : getItems cfg data = [] ∨
      (cfg.valueExpression = none ∧ ∃ flds, JValue.obj flds ∈ getItems cfg data)) :
    resolveOptions cfg data = ([⟨"", ""⟩], ["form_configuration_error"])
    ∧ mutateDyn data ⟨k, kind, cfg⟩ =
      (⟨k, kind, { cfg with values := [⟨"", ""⟩] }⟩, ["form_configuration_error"]) := by
  have h1 : resolveOptions cfg data = ([⟨"", ""⟩], ["form_configuration_error"]) := by
    unfold resolveOptions
    rw [if_pos hv]
    rcases herr with he | ⟨hve, flds, hmem⟩
    · rw [he]
      rfl
    · have hnone := projectAll_none_of_obj cfg hve (getItems cfg data) flds hmem
      simp only [hnone]
      cases hg : getItems cfg data <;> rfl
  refine ⟨h1, ?_⟩
  cases kind with
  | other => exact absurd rfl hk
  | selectboxes => simp [mutateDyn, h1]
  | selectD => simp [mutateDyn, h1]
  | radioD => simp [mutateDyn, h1]

/-- Witness for C7 at the repeating-group source missing its value
expression, mirroring the missing-value-path resolver test. -/
theorem resolver_placeholder_on_config_error_witness :
    resolveOptions ⟨DataSrc.variableSrc, [⟨"", ""⟩], some "repeatingGroup", none⟩
      [("repeatingGroup", JValue.list
        [JValue.obj [("name", JValue.str "Test1")], JValue.obj [("name", JValue.str "Test2")]])] =
      ([⟨"", ""⟩], ["form_configuration_error"])
    ∧ mutateDyn
      [("repeatingGroup", JValue.list
        [JValue.obj [("name", JValue.str "Test1")], JValue.obj [("name", JValue.str "Test2")]])]
      ⟨"selectBoxes", DynKind.selectboxes,
        ⟨DataSrc.variableSrc, [⟨"", ""⟩], some "repeatingGroup", none⟩⟩ =
      (⟨"selectBoxes", DynKind.selectboxes,
        { (⟨DataSrc.variableSrc, [⟨"", ""⟩], some "repeatingGroup", none⟩ : ChoiceConfig) with
          values := [⟨"", ""⟩] }⟩, ["form_configuration_error"]) := by
  have hmem : JValue.obj [("name", JValue.str "Test1")] ∈
      getItems ⟨DataSrc.variableSrc, [⟨"", ""⟩], some "repeatingGroup", none⟩
        [("repeatingGroup", JValue.list
          [JValue.obj [("name", JValue.str "Test1")], JValue.obj [("name", JValue.str "Test2")]])] := by
    show JValue.obj [("name", JValue.str "Test1")] ∈
      [JValue.obj [("name", JValue.str "Test1")], JValue.obj [("name", JValue.str "Test2")]]
    exact List.mem_cons_self _ _
  exact resolver_placeholder_on_config_error
    ⟨DataSrc.variableSrc, [⟨"", ""⟩], some "repeatingGroup", none⟩
    [("repeatingGroup", JValue.list
      [JValue.obj [("name", JValue.str "Test1")], JValue.obj [("name", JValue.str "Test2")]])]
    "selectBoxes" DynKind.selectboxes (by decide) rfl
    (Or.inr ⟨rfl, [("name", JValue.str "Test1")], hmem⟩)

/-- Characters produced by escaping a single character never include an
angle bracket or a double quote. -/
theorem escapeChar_no_markup (c : Char) :
    ∀ ch ∈ escapeChar c, ch ≠ '<' ∧ ch ≠ '>' ∧ ch ≠ Char.ofNat 34 := by
  intro ch hch
  unfold escapeChar at hch
  split at hch
  · rw [show ("&amp;".data) = ['&', 'a', 'm', 'p', ';'] from rfl] at hch
    fin_cases hch <;> decide
  · split at hch
    · rw [show ("&lt;".data) = ['&', 'l', 't', ';'] from rfl] at hch
      fin_cases hch <;> decide
    · split at hch
      · rw [show ("&gt;".data) = ['&', 'g', 't', ';'] from rfl] at hch
        fin_cases hch <;> decide
      · split at hch
        · rw [show ("&quot;".data) = ['&', 'q', 'u', 'o', 't', ';'] from rfl] at hch
          fin_cases hch <;> decide
        · split at hch
          · rw [show ("&#x27;".data) = ['&', '#', 'x', '2', '7', ';'] from rfl] at hch
            fin_cases hch <;> decide
          · rename_i h1 h2 h3 h4 h5
            rw [List.mem_singleton] at hch
            subst hch
            exact ⟨h2, h3, h4⟩

/-- Escaping a string yields a markup-free string. -/
theorem escapeHtml_markupFree (s : String) : markupFree (escapeHtml s) := by
  show ∀ ch ∈ (escapeHtml s).data, ch ≠ '<' ∧ ch ≠ '>' ∧ ch ≠ Char.ofNat 34
  have hd : (escapeHtml s).data = escapeChars s.data := rfl
  rw [hd]
  generalize s.data = cs
  induction cs with
  | nil =>
    intro ch hch
    simp [escapeChars] at hch
  | cons c rest ih =>
    intro ch hch
    rw [show escapeChars (c :: rest) = escapeChar c ++ escapeChars rest from rfl,
      List.mem_append] at hch
    rcases hch with h | h
    · exact escapeChar_no_markup c ch h
    · exact ih ch h

/-- Every option produced by the resolver for a variable data source is
markup free, whether it is a placeholder or an escaped projected value. -/
theorem resolveOptions_markupFree (cfg : ChoiceConfig) (data : List (String × JValue))
    (hv : cfg.dataSrc = DataSrc.variableSrc) :
    ∀ opt ∈ (resolveOptions cfg data).1, markupFree opt.label ∧ markupFree opt.value := by
  have hempty : markupFree "" := by
    intro ch hch
    rw [show ("" : String).data = ([] : List Char) from rfl] at hch
    exact absurd hch (List.not_mem_nil ch)
  intro opt hopt
  unfold resolveOptions at hopt
  rw [if_pos hv] at hopt
  simp only at hopt
  cases hg : getItems cfg data with
  | nil =>
    rw [hg] at hopt
    simp at hopt
    subst hopt
    exact ⟨hempty, hempty⟩
  | cons a as =>
    rw [hg] at hopt
    cases hp : projectAll cfg (a :: as) with
    | none =>
      rw [hp] at hopt
      simp at hopt
      subst hopt
      exact ⟨hempty, hempty⟩
    | some vals =>
      rw [hp] at hopt
      simp at hopt
      obtain ⟨s, hs, rfl⟩ := hopt
      exact ⟨escapeHtml_markupFree s, escapeHtml_markupFree s⟩

/-- C9: every label and value stored by the dynamic rewrite pass into a
variable-source choice component is markup free: HTML-significant
characters are turned into entities before the options are stored in the
rewritten component tree. -/
theorem rewritten_variable_options_markup_free (data : List (String × JValue))
    (comps : List DynComponent) :
    ∀ c ∈ (rewriteAll data comps).1, c.kind ≠ DynKind.other →
      c.cfg.dataSrc = DataSrc.variableSrc →
      ∀ opt ∈ c.cfg.values, markupFree opt.label ∧ markupFree opt.value := by
  induction comps with
  | nil =>
    intro c hc
    simp [rewriteAll] at hc
  | cons hd rest ih =>
    intro c hc hkind hsrc
    rw [show (rewriteAll data (hd :: rest)).1 =
      (mutateDyn data hd).1 :: (rewriteAll data rest).1 from rfl] at hc
    rcases List.mem_cons.mp hc with heq | htail
    · subst heq
      revert hkind hsrc
      unfold mutateDyn
      cases hk : hd.kind <;> simp [hk]
      all_goals exact fun hsrc => resolveOptions_markupFree hd.cfg data hsrc
    · exact ih c htail hkind hsrc

/-- Witness for C9: the option stored for a radio component resolving a
variable holding markup input is markup free, mirroring the escaped-html
resolver test. -/
theorem rewritten_variable_options_markup_free_witness :
    markupFree "Some data &lt;IMG src=&quot;/test&quot; /&gt;" ∧
    markupFree "Some data &lt;IMG src=&quot;/test&quot; /&gt;" := by
  have happ := rewritten_variable_options_markup_free
    [("textField", JValue.list [JValue.str "Some data <IMG src=\"/test\" />"])]
    [⟨"radioKey", DynKind.radioD,
      ⟨DataSrc.variableSrc, [⟨"", ""⟩], some "textField", none⟩⟩]
  have hc : (⟨"radioKey", DynKind.radioD,
      ⟨DataSrc.variableSrc,
        [⟨"Some data &lt;IMG src=&quot;/test&quot; /&gt;",
          "Some data &lt;IMG src=&quot;/test&quot; /&gt;"⟩],
        some "textField", none⟩⟩ : DynComponent) ∈
      (rewriteAll [("textField", JValue.list [JValue.str "Some data <IMG src=\"/test\" />"])]
        [⟨"radioKey", DynKind.radioD,
          ⟨DataSrc.variableSrc, [⟨"", ""⟩], some "textField", none⟩⟩]).1 := by
    rw [show (rewriteAll
        [("textField", JValue.list [JValue.str "Some data <IMG src=\"/test\" />"])]
        [⟨"radioKey", DynKind.radioD,
          ⟨DataSrc.variableSrc, [⟨"", ""⟩], some "textField", none⟩⟩]).1 =
      [⟨"radioKey", DynKind.radioD,
        ⟨DataSrc.variableSrc,
          [⟨"Some data &lt;IMG src=&quot;/test&quot; /&gt;",
            "Some data &lt;IMG src=&quot;/test&quot; /&gt;"⟩],
          some "textField", none⟩⟩] from rfl]
    exact List.mem_singleton_self _
  exact happ _ hc (by decide) rfl _ (List.mem_singleton_self _)

/-- The walker is fieldset splicing followed by per-component field
building. -/
theorem build_serializer_eq : (l : List Component) →
    build_serializer l = fieldsOf (topLevelComps l)
  | [] => rfl
  | .fieldset _ cs :: rest => by
    have ihcs := build_serializer_eq cs
    have ih := build_serializer_eq rest
    change build_serializer cs ++ build_serializer rest = _
    rw [ihcs, ih]
    show _ = fieldsOf (topLevelComps cs ++ topLevelComps rest)
    unfold fieldsOf
    rw [List.filterMap_append]
  | .textfield k v m :: rest => by
    have ih := build_serializer_eq rest
    change (k, TextField.build_serializer_field v m) :: build_serializer rest = _
    rw [ih]
    rfl
  | .email k v m :: rest => by
    have ih := build_serializer_eq rest
    change (k, Email.build_serializer_field v m) :: build_serializer rest = _
    rw [ih]
    rfl
  | .phoneNumber k v m :: rest => by
    have ih := build_serializer_eq rest
    change (k, PhoneNumber.build_serializer_field v m) :: build_serializer rest = _
    rw [ih]
    rfl
  | .textarea k v m :: rest => by
    have ih := build_serializer_eq rest
    change (k, TextArea.build_serializer_field v m) :: build_serializer rest = _
    rw [ih]
    rfl
  | .timeC k v m :: rest => by
    have ih := build_serializer_eq rest
    change (k, Time.build_serializer_field v m) :: build_serializer rest = _
    rw [ih]
    rfl
  | .checkbox k v :: rest => by
    have ih := build_serializer_eq rest
    change (k, Checkbox.build_serializer_field v) :: build_serializer rest = _
    rw [ih]
    rfl
  | .selectC k v opts m :: rest => by
    have ih := build_serializer_eq rest
    change (k, Select.build_serializer_field v opts m) :: build_serializer rest = _
    rw [ih]
    rfl
  | .radioC k v opts m :: rest => by
    have ih := build_serializer_eq rest
    change (k, RadioC.build_serializer_field v opts) :: build_serializer rest = _
    rw [ih]
    rfl
  | .editgrid k v cs :: rest => by
    have ih := build_serializer_eq rest
    change (k, EditGrid.build_serializer_field v cs) :: build_serializer rest = _
    rw [ih]
    rfl
  | .content k :: rest => by
    have ih := build_serializer_eq rest
    change build_serializer rest = _
    rw [ih]
    rfl

/-- The field names of a flat component sequence form a sublist of the
component keys: every component contributes at most one field, named by
its key. -/
theorem fieldsOf_names_sublist (l : List Component) :
    ((fieldsOf l).map Prod.fst).Sublist (l.map Component.keyOf) := by
  induction l with
  | nil => simp [fieldsOf]
  | cons c rest ih =>
    unfold fieldsOf at ih ⊢
    rw [List.filterMap_cons]
    cases h : (buildField c).map fun f => (c.keyOf, f) with
    | none =>
      rw [List.map_cons]
      exact ih.cons _
    | some p =>
      have hfst : p.1 = c.keyOf := by
        rcases Option.map_eq_some'.mp h with ⟨f, _, rfl⟩
        rfl
      rw [List.map_cons, List.map_cons, hfst]
      exact ih.cons₂ _

/-- C1: in the composite validator compiled from a tree whose spliced top
level contains a repeating group with key g, the field list exposes g
exactly once, that field is the editgrid list field wrapping the row
serializer compiled once from the child components, and no child key of
the group appears among the top-level field names.  The hypotheses state
the data-model invariant that keys are unique within the tree. -/
theorem editgrid_single_group_field (comps pre suf : List Component)
    (g : String) (v : Validate) (cs : List Component)
    (hsplit : topLevelComps comps = pre ++ Component.editgrid g v cs :: suf)
    (hg : g ∉ (pre ++ suf).map Component.keyOf)
    (hchild : ∀ c ∈ cs, Component.keyOf c ∉ (topLevelComps comps).map Component.keyOf) :
    (((build_serializer comps).map Prod.fst).count g = 1)
    ∧ (g, EditGrid.build_serializer_field v cs) ∈ build_serializer comps
    ∧ (∀ c ∈ cs, Component.keyOf c ∉ (build_serializer comps).map Prod.fst) := by
  rw [List.map_append, List.mem_append] at hg
  push_neg at hg
  obtain ⟨hgpre, hgsuf⟩ := hg
  have heq : build_serializer comps =
      fieldsOf pre ++ (g, EditGrid.build_serializer_field v cs) :: fieldsOf suf := by
    rw [build_serializer_eq comps, hsplit]
    unfold fieldsOf
    rw [List.filterMap_append]
    rfl
  have hprecount : ((fieldsOf pre).map Prod.fst).count g = 0 := by
    rw [List.count_eq_zero]
    intro hmem
    exact hgpre ((fieldsOf_names_sublist pre).subset hmem)
  have hsufcount : ((fieldsOf suf).map Prod.fst).count g = 0 := by
    rw [List.count_eq_zero]
    intro hmem
    exact hgsuf ((fieldsOf_names_sublist suf).subset hmem)
  refine ⟨?_, ?_, ?_⟩
  · rw [heq, List.map_append, List.count_append, hprecount, List.map_cons,
      List.count_cons_self, hsufcount]
  · rw [heq]
    exact List.mem_append.mpr (Or.inr (List.mem_cons_self _ _))
  · intro c hc hmem
    rw [build_serializer_eq comps] at hmem
    exact hchild c hc ((fieldsOf_names_sublist (topLevelComps comps)).subset hmem)

/-- Witness for C1 at the repeating group of the nested-field-not-top-level
test: one top-level field named toplevel, holding the row serializer, and
the nested child key absent from the top level. -/
theorem editgrid_single_group_field_witness :
    (((build_serializer [Component.editgrid "toplevel" {}
        [Component.textfield "nested" { required := some true } false]]).map Prod.fst).count
      "toplevel" = 1)
    ∧ ("toplevel", EditGrid.build_serializer_field {}
        [Component.textfield "nested" { required := some true } false]) ∈
      build_serializer [Component.editgrid "toplevel" {}
        [Component.textfield "nested" { required := some true } false]]
    ∧ (∀ c ∈ [Component.textfield "nested" { required := some true } false],
        Component.keyOf c ∉ (build_serializer [Component.editgrid "toplevel" {}
          [Component.textfield "nested" { required := some true } false]]).map Prod.fst) :=
  editgrid_single_group_field
    [Component.editgrid "toplevel" {}
      [Component.textfield "nested" { required := some true } false]]
    [] [] "toplevel" {}
    [Component.textfield "nested" { required := some true } false]
    rfl (by simp) (by decide)

/-- Membership in the error list of runElems: an entry exists at index i
exactly when the element at zero-based offset i minus the start index
fails child validation with that error. -/
theorem runElems_mem (cf : JValue → Except ErrorTree VResult) (xs : List JValue)
    (idx : Nat) (i : Nat) (e : ErrorTree) :
    ((i, e) ∈ (runElems cf xs idx).1) ↔
      ∃ j x, xs[j]? = some x ∧ i = idx + j ∧ cf x = .error e := by
  induction xs generalizing idx with
  | nil => simp [runElems]
  | cons x rest ih =>
    cases h : cf x with
    | error e0 =>
      simp only [runElems, h, List.mem_cons]
      constructor
      · rintro (heq | hmem)
        · injection heq with h1 h2
          subst h1
          subst h2
          exact ⟨0, x, by simp, by omega, h⟩
        · obtain ⟨j, y, hj, hi, hcf⟩ := (ih (idx + 1)).mp hmem
          refine ⟨j + 1, y, ?_, by omega, hcf⟩
          simpa using hj
      · rintro ⟨j, y, hj, hi, hcf⟩
        cases j with
        | zero =>
          left
          simp only [List.getElem?_cons_zero, Option.some_inj] at hj
          subst hj
          rw [h] at hcf
          injection hcf with he
          subst he
          have hidx : i = idx := by omega
          subst hidx
          rfl
        | succ n =>
          right
          refine (ih (idx + 1)).mpr ⟨n, y, ?_, by omega, hcf⟩
          simpa using hj
    | ok r =>
      have hun : (runElems cf (x :: rest) idx).1 = (runElems cf rest (idx + 1)).1 := by
        cases r <;> simp [runElems, h]
      rw [hun, ih (idx + 1)]
      constructor
      · rintro ⟨j, y, hj, hi, hcf⟩
        refine ⟨j + 1, y, ?_, by omega, hcf⟩
        simpa using hj
      · rintro ⟨j, y, hj, hi, hcf⟩
        cases j with
        | zero =>
          simp only [List.getElem?_cons_zero, Option.some_inj] at hj
          subst hj
          rw [h] at hcf
          exact absurd hcf (by simp)
        | succ n =>
          refine ⟨n, y, ?_, by omega, hcf⟩
          simpa using hj

/-- Membership in the error list of a composite serializer: an entry for a
field name exists exactly when some field registered under that name fails
on the value looked up for that name. -/
theorem fieldsSem_mem (ext : ExtEnv) (fields : List (String × SField))
    (kvs : List (String × JValue)) (name : String) (e : ErrorTree) :
    ((name, e) ∈ (fieldsSem ext fields kvs).1) ↔
      ∃ f, (name, f) ∈ fields ∧ fieldSem ext f (List.lookup name kvs) = .error e := by
  induction fields with
  | nil => simp [fieldsSem]
  | cons p rest ih =>
    obtain ⟨n, f⟩ := p
    cases h : fieldSem ext f (List.lookup n kvs) with
    | error e0 =>
      simp only [fieldsSem, h, List.mem_cons]
      constructor
      · rintro (heq | hmem)
        · injection heq with h1 h2
          subst h1
          subst h2
          exact ⟨f, Or.inl rfl, h⟩
        · obtain ⟨f0, hf0, hcf⟩ := ih.mp hmem
          exact ⟨f0, Or.inr hf0, hcf⟩
      · rintro ⟨f0, hmem01, hcf⟩
        rcases hmem01 with heq | htail
        · injection heq with h1 h2
          subst h1
          subst h2
          left
          rw [h] at hcf
          injection hcf with he
          rw [he]
        · exact Or.inr (ih.mpr ⟨f0, htail, hcf⟩)
    | ok r =>
      have hun : (fieldsSem ext ((n, f) :: rest) kvs).1 = (fieldsSem ext rest kvs).1 := by
        cases r <;> simp [fieldsSem, h]
      rw [hun, ih]
      constructor
      · rintro ⟨f0, htail, hcf⟩
        exact ⟨f0, List.mem_cons.mpr (Or.inr htail), hcf⟩
      · rintro ⟨f0, hmem01, hcf⟩
        rcases List.mem_cons.mp hmem01 with heq | htail
        · injection heq with h1 h2
          subst h1
          subst h2
          rw [h] at hcf
          exact absurd hcf (by simp)
        · exact ⟨f0, htail, hcf⟩

/-- A list field whose child fails on some element reports the indexed
child error map, regardless of its own required, null, empty and
max-length options. -/
theorem listF_error_of_child_failure (ext : ExtEnv) (child : SField)
    (req anull aempt : Bool) (maxLen : Option Nat) (r0 : JValue) (rs : List JValue)
    (hE : ((runElems (fun y => fieldSem ext child (some y)) (r0 :: rs) 0).1).isEmpty = false) :
    fieldSem ext (.listF child req anull aempt maxLen) (some (.list (r0 :: rs))) =
      .error (.indexed (runElems (fun y => fieldSem ext child (some y)) (r0 :: rs) 0).1) := by
  simp only [fieldSem, List.isEmpty_cons, Bool.false_and]
  simp [hE]

/-- C5: when the composite validator runs over data in which some row of a
repeating group violates a child rule, the errors for the group key form
an index-addressed map holding exactly the zero-based indices of failing
rows (rows whose children all pass contribute no entry), and the entry of
a failing object row is keyed by the child field names that fail on that
row. -/
theorem editgrid_error_indexing (ext : ExtEnv) (g : String) (v : Validate)
    (cs : List Component) (rows : List JValue)
    (hfail : ∃ (j : Nat) (x : JValue) (e0 : ErrorTree), rows[j]? = some x ∧
      fieldSem ext (SField.serF (build_serializer cs)) (some x) = .error e0) :
    ∃ entries,
      validateErrors ext (build_serializer [Component.editgrid g v cs])
        [(g, JValue.list rows)] = [(g, ErrorTree.indexed entries)]
      ∧ (∀ (i : Nat) (e : ErrorTree), (i, e) ∈ entries ↔ ∃ (x : JValue),
          rows[i]? = some x ∧
          fieldSem ext (SField.serF (build_serializer cs)) (some x) = .error e)
      ∧ (∀ (i : Nat) (kvs : List (String × JValue)) (l : List (String × ErrorTree)),
          rows[i]? = some (JValue.obj kvs) →
          (i, ErrorTree.nested l) ∈ entries →
          ∀ name e, ((name, e) ∈ l ↔ ∃ f, (name, f) ∈ build_serializer cs ∧
            fieldSem ext f (List.lookup name kvs) = .error e)) := by
  obtain ⟨j, x, e0, hj, hcf⟩ := hfail
  cases rows with
  | nil => simp at hj
  | cons r0 rs =>
    have hmem0 : (j, e0) ∈
        (runElems (fun y => fieldSem ext (SField.serF (build_serializer cs)) (some y))
          (r0 :: rs) 0).1 :=
      (runElems_mem _ (r0 :: rs) 0 j e0).mpr ⟨j, x, hj, by omega, hcf⟩
    have hEfalse :
        ((runElems (fun y => fieldSem ext (SField.serF (build_serializer cs)) (some y))
          (r0 :: rs) 0).1).isEmpty = false := by
      cases hE : (runElems (fun y => fieldSem ext (SField.serF (build_serializer cs)) (some y))
          (r0 :: rs) 0).1 with
      | nil => rw [hE] at hmem0; simp at hmem0
      | cons a b => rfl
    refine ⟨(runElems (fun y => fieldSem ext (SField.serF (build_serializer cs)) (some y))
      (r0 :: rs) 0).1, ?_, ?_, ?_⟩
    · have hF := listF_error_of_child_failure ext (SField.serF (build_serializer cs))
        (v.required.getD false) (!v.required.getD false) (!v.required.getD false)
        v.maxLength r0 rs hEfalse
      unfold validateErrors
      rw [show build_serializer [Component.editgrid g v cs] =
        [(g, EditGrid.build_serializer_field v cs)] from rfl]
      simp only [fieldsSem]
      rw [show List.lookup g [(g, JValue.list (r0 :: rs))] =
        some (JValue.list (r0 :: rs)) by simp [List.lookup]]
      rw [show EditGrid.build_serializer_field v cs =
        SField.listF (SField.serF (build_serializer cs)) (v.required.getD false)
          (!v.required.getD false) (!v.required.getD false) v.maxLength from rfl]
      rw [hF]
    · intro i e
      rw [runElems_mem]
      constructor
      · rintro ⟨j2, y, hj2, hi, hcf2⟩
        have hji : j2 = i := by omega
        subst hji
        exact ⟨y, hj2, hcf2⟩
      · rintro ⟨y, hy, hcf2⟩
        exact ⟨i, y, hy, by omega, hcf2⟩
    · intro i kvs l hrow hentry name e
      obtain ⟨j2, y, hj2, hi, hcfy⟩ := (runElems_mem _ (r0 :: rs) 0 i
        (ErrorTree.nested l)).mp hentry
      have hji : j2 = i := by omega
      subst hji
      rw [hrow] at hj2
      injection hj2 with hy
      subst hy
      have hl : (fieldsSem ext (build_serializer cs) kvs).1 = l := by
        have hcfy2 := hcfy
        rw [show fieldSem ext (SField.serF (build_serializer cs)) (some (JValue.obj kvs)) =
            (if ((fieldsSem ext (build_serializer cs) kvs).1).isEmpty then
              Except.ok (VResult.val (JValue.obj (fieldsSem ext (build_serializer cs) kvs).2))
            else Except.error (ErrorTree.nested (fieldsSem ext (build_serializer cs) kvs).1))
          from rfl] at hcfy2
        cases hE2 : ((fieldsSem ext (build_serializer cs) kvs).1).isEmpty with
        | true =>
          rw [hE2] at hcfy2
          simp at hcfy2
        | false =>
          rw [hE2] at hcfy2
          simp at hcfy2
          exact hcfy2
      rw [← hl]
      exact fieldsSem_mem ext (build_serializer cs) kvs name e

/-- Witness for C5 on the rows of the nested-field validation test: the
blank second row and the empty third row fail, the first row passes. -/
theorem editgrid_error_indexing_witness :
    ∃ entries,
      validateErrors extDefault (build_serializer [Component.editgrid "parent" {}
        [Component.textfield "nested" { required := some true } false]])
        [("parent", JValue.list [JValue.obj [("nested", JValue.str "foo")],
          JValue.obj [("nested", JValue.str "")], JValue.obj []])] =
        [("parent", ErrorTree.indexed entries)]
      ∧ (∀ (i : Nat) (e : ErrorTree), (i, e) ∈ entries ↔ ∃ (x : JValue),
          [JValue.obj [("nested", JValue.str "foo")],
            JValue.obj [("nested", JValue.str "")], JValue.obj []][i]? = some x ∧
          fieldSem extDefault (SField.serF (build_serializer
            [Component.textfield "nested" { required := some true } false])) (some x) =
            .error e)
      ∧ (∀ (i : Nat) (kvs : List (String × JValue)) (l : List (String × ErrorTree)),
          [JValue.obj [("nested", JValue.str "foo")],
            JValue.obj [("nested", JValue.str "")], JValue.obj []][i]? =
            some (JValue.obj kvs) →
          (i, ErrorTree.nested l) ∈ entries →
          ∀ name e, ((name, e) ∈ l ↔ ∃ f, (name, f) ∈ build_serializer
            [Component.textfield "nested" { required := some true } false] ∧
            fieldSem extDefault f (List.lookup name kvs) = .error e)) :=
  editgrid_error_indexing extDefault "parent" {}
    [Component.textfield "nested" { required := some true } false]
    [JValue.obj [("nested", JValue.str "foo")],
      JValue.obj [("nested", JValue.str "")], JValue.obj []]
    ⟨1, JValue.obj [("nested", JValue.str "")],
      ErrorTree.nested [("nested", ErrorTree.codes ["blank"])], by simp, rfl⟩
